import Mathlib

/-!
Verification development for the lognow logging façade.

The file embeds, as executable Lean definitions, the parts of the source that
the verified properties are about:

* a model of JavaScript values (`JsVal`) with a reference heap so that
  circular object graphs can be expressed,
* the JSON record serializer `paramsToJsonString` from
  `src/loglayer/json-shared.ts`, including a model of its external
  dependency `safe-stable-stringify` (deterministic sorted keys, keys with
  undefined values omitted, circular references rendered as the
  `[Circular]` placeholder),
* the pretty transport `PrettyBasicTransport.shipToLogger` and its helper
  functions from `src/loglayer/pretty-basic-transport.ts`,
* the JSON transport `JsonBasicTransport.shipToLogger` from
  `src/loglayer/json-basic-transport.ts`,
* the target classifier `createLogBasicTypedTarget` and the environment
  color signals from `src/log.ts`,
* the `HierarchicalContextManager` from
  `src/loglayer/hierarchical-context-manager.ts` together with the context
  copy and merge semantics of the underlying context manager.
-/

set_option maxRecDepth 8000

namespace Lognow

/-- Model of a JavaScript value. Inline constructors model freshly built
values; `ref n` models a pointer into a heap of shared mutable objects, which
is how circular object graphs are expressed (an inductive value cannot
contain itself, a heap node can point back to itself). -/
inductive JsVal where
  | undef : JsVal
  | null : JsVal
  | bool (b : Bool) : JsVal
  | num (n : Int) : JsVal
  | str (s : String) : JsVal
  | arr (elems : List JsVal) : JsVal
  | obj (fields : List (String × JsVal)) : JsVal
  | ref (n : Nat) : JsVal

/-- Heap of shared objects; `JsVal.ref n` points at position `n`. -/
def Heap : Type := List JsVal

/-- Dereference a heap pointer; an out of range pointer reads as undefined. -/
def derefHeap (h : Heap) (n : Nat) : JsVal :=
  List.getD h n JsVal.undef

/-- JavaScript truthiness of a value (undefined, null, false, 0 and the
empty string are falsy, everything else is truthy). -/
def jsTruthy : JsVal → Bool
  | JsVal.undef => false
  | JsVal.null => false
  | JsVal.bool b => b
  | JsVal.num n => !(n == 0)
  | JsVal.str s => !(s == "")
  | _ => true

/-- Test for the undefined value. -/
def isUndef : JsVal → Bool
  | JsVal.undef => true
  | _ => false

/-- Own enumerable fields of an object value, dereferencing one heap pointer;
non objects have no fields. -/
def fieldsOf (h : Heap) : JsVal → List (String × JsVal)
  | JsVal.obj fs => fs
  | JsVal.ref n =>
    match derefHeap h n with
    | JsVal.obj fs => fs
    | _ => []
  | _ => []

/-- Property read: the value stored under key `k`, or undefined when the key
is absent. -/
def lookupField (fs : List (String × JsVal)) (k : String) : JsVal :=
  match fs.find? (fun kv => kv.1 == k) with
  | some kv => kv.2
  | none => JsVal.undef

/-- Escape one character for inclusion in a JSON string literal. Sufficient
for the characters appearing in this development. -/
def jsonEscapeChar (c : Char) : String :=
  if c = '"' then "\\\""
  else if c = '\\' then "\\\\"
  else if c = '\n' then "\\n"
  else if c = '\t' then "\\t"
  else if c = '\r' then "\\r"
  else String.mk [c]

/-- Escape a string for inclusion in a JSON string literal. -/
def jsonEscape (s : String) : String :=
  String.join (s.data.map jsonEscapeChar)

/-- Lexicographic comparison of character lists by code point, modelling the
default string comparison used by the key sort of safe-stable-stringify. -/
def strLtChars : List Char → List Char → Bool
  | [], [] => false
  | [], _ :: _ => true
  | _ :: _, [] => false
  | a :: as, b :: bs =>
    if a.toNat < b.toNat then true
    else if b.toNat < a.toNat then false
    else strLtChars as bs

/-- Lexicographic string comparison by code point. -/
def strLt (a b : String) : Bool := strLtChars a.data b.data

/-- Insert a rendered key and value pair into a list sorted by key, modelling
the deterministic key sort of safe-stable-stringify. -/
def insertPairSorted (p : String × Option String) :
    List (String × Option String) → List (String × Option String)
  | [] => [p]
  | q :: qs => if strLt p.1 q.1 then p :: q :: qs else q :: insertPairSorted p qs

/-- Sort rendered key and value pairs by key (insertion sort), modelling the
deterministic key sort of safe-stable-stringify. -/
def sortPairs : List (String × Option String) → List (String × Option String)
  | [] => []
  | p :: ps => insertPairSorted p (sortPairs ps)

/-- Modelled external dependency safe-stable-stringify: serialize a value to
a JSON string. The result is `none` for undefined (such keys are omitted from
objects, such array slots render as null). Keys are emitted in sorted order.
A heap pointer already on the ancestor `stack` is a circular edge and renders
as the `[Circular]` placeholder instead of recursing, which is how the
library guarantees the serializer never throws. The `fuel` argument makes the
recursion structural; callers pass a bound that the stack discipline can
never exhaust. -/
def serVal (h : Heap) : Nat → List Nat → JsVal → Option String
  | 0, _, _ => some "\"[MaxDepth]\""
  | _ + 1, _, JsVal.undef => none
  | _ + 1, _, JsVal.null => some "null"
  | _ + 1, _, JsVal.bool b => some (if b then "true" else "false")
  | _ + 1, _, JsVal.num n => some (toString n)
  | _ + 1, _, JsVal.str s => some ("\"" ++ jsonEscape s ++ "\"")
  | fuel + 1, stack, JsVal.arr xs =>
    some ("[" ++
      String.intercalate "," (xs.map (fun x => (serVal h fuel stack x).getD "null")) ++ "]")
  | fuel + 1, stack, JsVal.obj fs =>
    let rendered := fs.map (fun kv => (kv.1, serVal h fuel stack kv.2))
    some ("\x7b" ++
      String.intercalate ","
        ((sortPairs rendered).filterMap
          (fun kv => kv.2.map (fun s => "\"" ++ jsonEscape kv.1 ++ "\":" ++ s))) ++ "\x7d")
  | fuel + 1, stack, JsVal.ref n =>
    if n ∈ stack then some "\"[Circular]\""
    else serVal h fuel (n :: stack) (derefHeap h n)

mutual

/-- Number of constructors in a value, an upper bound on its nesting depth. -/
def jsSize : JsVal → Nat
  | JsVal.arr xs => 1 + jsSizeList xs
  | JsVal.obj fs => 1 + jsSizeFields fs
  | _ => 1

/-- Combined size of the values in a list. -/
def jsSizeList : List JsVal → Nat
  | [] => 0
  | x :: xs => jsSize x + jsSizeList xs

/-- Combined size of the values in a field list. -/
def jsSizeFields : List (String × JsVal) → Nat
  | [] => 0
  | kv :: fs => jsSize kv.2 + jsSizeFields fs

end

/-- Fuel bound for the serializer: along any path the recursion either
descends structurally, consuming one unit per constructor of the starting
value or of a heap node entered at most once, or dereferences a pointer that
is pushed on the stack, and each pointer is pushed at most once, so the
combined size of the value and the heap bounds the recursion depth. -/
def stringifyFuel (h : Heap) (v : JsVal) : Nat :=
  jsSize v + jsSizeList h + h.length + 1

/-- Top level entry of the modelled safe-stable-stringify; a top level
undefined gives the empty string, matching the fallback in the source. -/
def safeStableStringify (h : Heap) (v : JsVal) : String :=
  (serVal h (stringifyFuel h v) [] v).getD ""

/-- Log levels of the transport record (LogLevelType). -/
inductive JsLogLevel where
  | trace : JsLogLevel
  | debug : JsLogLevel
  | info : JsLogLevel
  | warn : JsLogLevel
  | error : JsLogLevel
  | fatal : JsLogLevel

/-- String form of a log level, as serialized into the level field. -/
def JsLogLevel.text : JsLogLevel → String
  | JsLogLevel.trace => "trace"
  | JsLogLevel.debug => "debug"
  | JsLogLevel.info => "info"
  | JsLogLevel.warn => "warn"
  | JsLogLevel.error => "error"
  | JsLogLevel.fatal => "fatal"

/-- The LogLayerTransportParams record handed to every shipToLogger call.
`none` in `context`, `metadata` or `error` models the key being absent from
the params object. -/
structure TransportParams where
  logLevel : JsLogLevel
  messages : List JsVal
  context : Option JsVal
  metadata : Option JsVal
  error : Option JsVal

/-- Extraction of the error payload, from paramsToJsonString and
PrettyBasicTransport.shipToLogger: an absent, null or undefined error key
yields undefined, anything else is kept. -/
def extractErrorObject (p : TransportParams) : JsVal :=
  match p.error with
  | none => JsVal.undef
  | some JsVal.null => JsVal.undef
  | some JsVal.undef => JsVal.undef
  | some v => v

/-- Extraction of the metadata payload, from paramsToJsonString and
PrettyBasicTransport.shipToLogger: an absent, null or undefined metadata key,
or one with no own keys, yields undefined. -/
def extractMetadataObject (h : Heap) (p : TransportParams) : JsVal :=
  match p.metadata with
  | none => JsVal.undef
  | some JsVal.null => JsVal.undef
  | some JsVal.undef => JsVal.undef
  | some v => if (fieldsOf h v).length = 0 then JsVal.undef else v

/-- Context keys that are privileged by the destructuring in the source. -/
def restFields (fs : List (String × JsVal)) : List (String × JsVal) :=
  fs.filter (fun kv =>
    !(kv.1 == "name" || kv.1 == "parentNames" || kv.1 == "timestamp"))

/-- The logEntry object literal built by paramsToJsonString, in the insertion
order of the source literal, with the timestamp defaulting to the injected
current ISO time when the context carries none (the source uses a nullish
coalescing operator, so both undefined and null fall back). -/
def mkLogEntry (h : Heap) (p : TransportParams) (nowIso : String) :
    List (String × JsVal) :=
  let ctxFields := fieldsOf h (p.context.getD (JsVal.obj []))
  let rest := restFields ctxFields
  let tsVal := lookupField ctxFields "timestamp"
  [("context", if rest.length = 0 then JsVal.undef else JsVal.obj rest),
   ("error", extractErrorObject p),
   ("level", JsVal.str p.logLevel.text),
   ("messages", JsVal.arr p.messages),
   ("metadata", extractMetadataObject h p),
   ("name", lookupField ctxFields "name"),
   ("parentNames", lookupField ctxFields "parentNames"),
   ("timestamp",
     match tsVal with
     | JsVal.undef => JsVal.str nowIso
     | JsVal.null => JsVal.str nowIso
     | v => v)]

/-- Override step of the object spread: an entry of the first object keeps
its key and takes the value of the second object when that object also has
the key. -/
def overrideEntry (b : List (String × JsVal)) (kv : String × JsVal) :
    String × JsVal :=
  match b.find? (fun kv2 => kv2.1 == kv.1) with
  | some kv2 => (kv.1, kv2.2)
  | none => kv

/-- Key membership in an object field list. -/
def hasKey (a : List (String × JsVal)) (k : String) : Bool :=
  a.any (fun kv => kv.1 == k)

/-- Shallow object merge with JavaScript spread semantics: keys of the first
object keep their position (with the overriding value when the second object
also has the key), keys only in the second object are appended in order. -/
def mergeObj (a b : List (String × JsVal)) : List (String × JsVal) :=
  a.map (overrideEntry b) ++ b.filter (fun kv2 => !(hasKey a kv2.1))

/-- Embeds paramsToJsonString from json-shared.ts: destructure the privileged
context keys, normalize the error and metadata payloads, build the logEntry
literal (spreading any staticData over it, as the file transport does) and
serialize it with the modelled safe-stable-stringify. The console JSON
transport calls this with empty staticData. `nowIso` stands for the result of
the default timestampFn. -/
def paramsToJsonString (h : Heap) (p : TransportParams) (nowIso : String)
    (staticData : List (String × JsVal)) : String :=
  safeStableStringify h (JsVal.obj (mergeObj (mkLogEntry h p nowIso) staticData))

/-- Scanner over an emitted JSON text that lists the keys of the top level
object in the order they appear. It formalizes the spec side of the key
order property independently of the serializer: a quoted string is a top
level key exactly when it occurs at brace depth one right after an opening
brace or a comma. Escaped quotes are not handled; the scanned outputs of
this development contain none. The state is the remaining characters, the
current bracket depth, the pending string accumulator with its key flag when
inside a string, and the last significant character seen. -/
def topKeysAux : List Char → Nat → Option (List Char × Bool) → Char →
    List String → List String
  | [], _, _, _, out => out.reverse
  | c :: cs, depth, some (acc, isKey), lastSig, out =>
    if c = '"' then
      topKeysAux cs depth none '"'
        (if isKey then String.mk acc.reverse :: out else out)
    else
      topKeysAux cs depth (some (c :: acc, isKey)) lastSig out
  | c :: cs, depth, none, lastSig, out =>
    if c = '"' then
      topKeysAux cs depth
        (some ([], depth == 1 && (lastSig == '\x7b' || lastSig == ','))) lastSig out
    else if c = '\x7b' ∨ c = '[' then
      topKeysAux cs (depth + 1) none c out
    else if c = '\x7d' ∨ c = ']' then
      topKeysAux cs (depth - 1) none c out
    else
      topKeysAux cs depth none c out

/-- Keys of the top level JSON object of an emitted text, in output order. -/
def topLevelKeysOf (s : String) : List String :=
  topKeysAux s.data 0 none ' ' []

/-!
Target classification, from `createLogBasicTypedTarget` and the type guards
in `src/log.ts`.
-/

/-- Observable shape of a candidate output target: the identity facts and
callable members that the type guards in the source consult. The two
process stream identities fold in the guard that a process object exists,
since an identity match is only possible when it does. All candidates are
non null objects, matching the typeof checks of the guards. -/
structure TargetShape where
  isProcessStdout : Bool
  isProcessStderr : Bool
  isGlobalConsole : Bool
  hasConsoleCtorName : Bool
  hasDebug : Bool
  hasError : Bool
  hasInfo : Bool
  hasTrace : Bool
  hasWarn : Bool
  hasWrite : Bool

/-- Guard isStreamStdout: identity with the standard output stream. -/
def isStreamStdout (t : TargetShape) : Bool := t.isProcessStdout

/-- Guard isStreamStderr: identity with the standard error stream. -/
def isStreamStderr (t : TargetShape) : Bool := t.isProcessStderr

/-- Guard isConsole: identity with the ambient global console, or a
constructor named Console. -/
def isConsole (t : TargetShape) : Bool :=
  t.isGlobalConsole || t.hasConsoleCtorName

/-- Guard isConsoleLike: all five of debug, error, info, trace and warn are
present as callables. -/
def isConsoleLike (t : TargetShape) : Bool :=
  t.hasDebug && t.hasError && t.hasInfo && t.hasTrace && t.hasWarn

/-- Guard isStreamLike: a callable write member. -/
def isStreamLike (t : TargetShape) : Bool := t.hasWrite

/-- The closed set of target kinds of the discriminated union. -/
inductive TargetKind where
  | Console : TargetKind
  | ConsoleLike : TargetKind
  | StreamLike : TargetKind
  | StreamStderr : TargetKind
  | StreamStdout : TargetKind

/-- Embeds createLogBasicTypedTarget: the guards run in source order, the
identity checks for the two standard streams first, then the console
checks, then the structural stream check; a candidate matching no guard is
a thrown classification error. -/
def createLogBasicTypedTarget (t : TargetShape) : Except String TargetKind :=
  if isStreamStdout t then Except.ok TargetKind.StreamStdout
  else if isStreamStderr t then Except.ok TargetKind.StreamStderr
  else if isConsole t then Except.ok TargetKind.Console
  else if isConsoleLike t then Except.ok TargetKind.ConsoleLike
  else if isStreamLike t then Except.ok TargetKind.StreamLike
  else Except.error "Unable to identify ILogBasic type"

/-!
Environment color signals, from `isEnvDefined`, `isNoColorSet`,
`isForceColorSet` in `src/log.ts` and the constructors of the two console
transports.
-/

/-- The ambient environment variable map: a name maps to its value when the
variable is present (possibly the empty string) and to `none` when absent. -/
def EnvMap : Type := String → Option String

/-- Embeds isEnvDefined: a variable counts as set exactly when it is present
in the environment, whatever its value. The three runtime lookups of the
source (process, globalThis.process, window.process) collapse to the single
ambient map. -/
def isEnvDefined (env : EnvMap) (value : String) : Bool :=
  (env value).isSome

/-- Embeds isNoColorSet. -/
def isNoColorSet (env : EnvMap) : Bool := isEnvDefined env "NO_COLOR"

/-- Embeds isForceColorSet. -/
def isForceColorSet (env : EnvMap) : Bool := isEnvDefined env "FORCE_COLOR"

/-- Embeds the colorize resolution of the PrettyBasicTransport constructor:
starting from the configured value after defaults, a set no color signal
forces false, then a set force color signal forces true. -/
def prettyResolveColorize (env : EnvMap) (configColorize : Bool) : Bool :=
  let c := configColorize
  let c := if isNoColorSet env then false else c
  let c := if isForceColorSet env then true else c
  c

/-- Embeds the identical colorize resolution of the JsonBasicTransport
constructor. -/
def jsonResolveColorize (env : EnvMap) (configColorize : Bool) : Bool :=
  let c := configColorize
  let c := if isNoColorSet env then false else c
  let c := if isForceColorSet env then true else c
  c

/-!
Context manager, from `HierarchicalContextManager` in
`src/loglayer/hierarchical-context-manager.ts` and `getChildLogger` in
`src/log.ts`. The context of a logger is a JavaScript object.
-/

/-- Logger context: an object as a key ordered field list. -/
def LogContext : Type := List (String × JsVal)

/-- Embeds HierarchicalContextManager.onChildLoggerCreated, applied to the
freshly created context of a child logger. The super call into the default
context manager of the underlying engine copies the parent context into the
child wholesale (the child starts empty); then the parent name, with null
standing in when the parent context has no name value, is appended to the
parent parentNames chain (absent or null chains read as empty) and merged
into the child context. -/
def onChildLoggerCreated (parentCtx : LogContext) : LogContext :=
  let c := parentCtx
  let parentName :=
    match lookupField parentCtx "name" with
    | JsVal.undef => JsVal.null
    | JsVal.null => JsVal.null
    | v => v
  let pns :=
    match lookupField parentCtx "parentNames" with
    | JsVal.arr xs => xs
    | _ => []
  mergeObj c [("parentNames", JsVal.arr (pns ++ [parentName]))]

/-- Embeds getChildLogger: derive a child (running the context manager hook)
and, when a truthy name is given (the empty string is falsy), merge it into
the child context via withContext. -/
def getChildLogger (parentCtx : LogContext) (name : Option String) : LogContext :=
  let c := onChildLoggerCreated parentCtx
  match name with
  | some n => if n = "" then c else mergeObj c [("name", JsVal.str n)]
  | none => c

/-- Embeds the root context set up by createLogger: when a name option is
present (undefined check, not truthiness) the context carries it. -/
def rootContext (name : Option String) : LogContext :=
  match name with
  | some n => [("name", JsVal.str n)]
  | none => []

/-- A chain of child logger creations below a root, leftmost child first. -/
def chainContext (root : LogContext) : List (Option String) → LogContext
  | [] => root
  | s :: specs => chainContext (getChildLogger root s) specs

/-- The parentNames chain stored in a context, read as the serializers and
the hook read it (absent or non array reads as empty). -/
def parentNamesList (c : LogContext) : List JsVal :=
  match lookupField c "parentNames" with
  | JsVal.arr xs => xs
  | _ => []

/-!
Pretty transport, from `src/loglayer/pretty-basic-transport.ts`.
-/

/-- The escape character starting an ANSI sequence. -/
def escChar : String := String.mk [Char.ofNat 27]

/-- Models the gray style of the ansi-colors dependency. -/
def ansiGray (s : String) : String := escChar ++ "[90m" ++ s ++ escChar ++ "[39m"

/-- Models the cyan style of the ansi-colors dependency. -/
def ansiCyan (s : String) : String := escChar ++ "[36m" ++ s ++ escChar ++ "[39m"

/-- Models the yellow style of the ansi-colors dependency. -/
def ansiYellow (s : String) : String := escChar ++ "[33m" ++ s ++ escChar ++ "[39m"

/-- Models the green style of the ansi-colors dependency. -/
def ansiGreen (s : String) : String := escChar ++ "[32m" ++ s ++ escChar ++ "[39m"

/-- Models the red style of the ansi-colors dependency. -/
def ansiRed (s : String) : String := escChar ++ "[31m" ++ s ++ escChar ++ "[39m"

/-- Models the blue style of the ansi-colors dependency. -/
def ansiBlue (s : String) : String := escChar ++ "[34m" ++ s ++ escChar ++ "[39m"

/-- Models the bold style of the ansi-colors dependency. -/
def ansiBold (s : String) : String := escChar ++ "[1m" ++ s ++ escChar ++ "[22m"

/-- A local wall clock instant, as far as formatTime consults it. -/
structure JsDate where
  hours : Nat
  minutes : Nat
  seconds : Nat
  milliseconds : Nat

/-- Left pad a number to two digits, modelling padStart. -/
def pad2 (n : Nat) : String :=
  if n < 10 then "0" ++ toString n else toString n

/-- Left pad a number to three digits, modelling padStart. -/
def pad3 (n : Nat) : String :=
  if n < 10 then "00" ++ toString n
  else if n < 100 then "0" ++ toString n
  else toString n

/-- Embeds formatTime: local HH:MM:SS.mmm, gray when colorized. -/
def formatTime (d : JsDate) (colorize : Bool) : String :=
  let timeString :=
    pad2 d.hours ++ ":" ++ pad2 d.minutes ++ ":" ++ pad2 d.seconds ++ "." ++
    pad3 d.milliseconds
  if colorize then ansiGray timeString else timeString

/-- Embeds getLogLevelString: a five character level label (INFO and WARN
carry a trailing pad space), bold colorized per the fixed level color map. -/
def getLogLevelString (level : JsLogLevel) (colorize : Bool) : String :=
  match level with
  | JsLogLevel.debug => if colorize then ansiBold (ansiGreen "DEBUG") else "DEBUG"
  | JsLogLevel.error => if colorize then ansiBold (ansiRed "ERROR") else "ERROR"
  | JsLogLevel.fatal => if colorize then ansiBold (ansiRed "FATAL") else "FATAL"
  | JsLogLevel.info => if colorize then ansiBold (ansiBlue "INFO ") else "INFO "
  | JsLogLevel.trace => if colorize then ansiBold (ansiGray "TRACE") else "TRACE"
  | JsLogLevel.warn => if colorize then ansiBold (ansiYellow "WARN ") else "WARN "

/-- Rendering of a value inside a template literal, as JavaScript string
interpolation would produce it; the entries of a parentNames chain pass
through here when they are bracketed. -/
def jsDisplayString : JsVal → String
  | JsVal.undef => "undefined"
  | JsVal.null => "null"
  | JsVal.bool b => if b then "true" else "false"
  | JsVal.num n => toString n
  | JsVal.str s => s
  | _ => "[object Object]"

/-- Embeds getNamePrefix of the pretty transport: with neither a name nor a
parentNames chain the bare separator bar is rendered; otherwise the chain
entries and then the name (when truthy, so not the empty string) are each
wrapped in brackets and concatenated, bold gray when colorized. -/
def getNameChain (name : Option String) (parentNames : Option (List JsVal))
    (colorize : Bool) : String :=
  match name, parentNames with
  | none, none => "|"
  | name, parentNames =>
    let items :=
      (parentNames.getD []) ++
      (match name with
       | some s => if s = "" then [] else [JsVal.str s]
       | none => [])
    let result := String.join (items.map (fun v => "[" ++ jsDisplayString v ++ "]"))
    if colorize then ansiBold (ansiGray result) else result

/-- A numeric inspect option value: finite or Infinity. -/
inductive JsNumber where
  | finite (n : Nat) : JsNumber
  | infinity : JsNumber

/-- The options the transports hand to the injected inspect function; a
`none` field models an option the call site does not pass. -/
structure InspectOptions where
  breakLength : Option JsNumber := none
  colors : Option Bool := none
  compact : Option Bool := none
  depth : Option JsNumber := none

/-- The biggest exact JavaScript integer, Number.MAX_SAFE_INTEGER. -/
def maxSafeInteger : Nat := 9007199254740991

/-- Split a character list at spaces, accumulating the current word in
reverse; models the word splitting step of the wrap-ansi dependency. -/
def splitOnSpace : List Char → List Char → List String
  | [], acc => [String.mk acc.reverse]
  | c :: cs, acc =>
    if c = ' ' then String.mk acc.reverse :: splitOnSpace cs []
    else splitOnSpace cs (c :: acc)

/-- Greedy row filling over the word list; a word that does not fit on the
current row starts a new row, and an overlong word stays whole (the source
does not use hard wrapping). -/
def greedyLines (width : Nat) : List String → String → List String
  | [], current => [current]
  | w :: ws, current =>
    if current.length + 1 + w.length ≤ width then
      greedyLines width ws (current ++ " " ++ w)
    else
      current :: greedyLines width ws w

/-- Models the external wrap-ansi dependency on uncolored input: soft wrap
the text at spaces to the given column width, joining rows with newlines. A
text no wider than the width passes through unchanged. -/
def wrapAnsiModel (s : String) (width : Nat) : String :=
  match splitOnSpace s.data [] with
  | [] => s
  | w :: ws => String.intercalate "\n" (greedyLines width ws w)

/-- Effect of one shipToLogger call on its target: a console method call
with a list of arguments, a single stream write of a chunk, or nothing when
the transport is disabled. -/
inductive ShipOutput where
  | consoleCall (method : String) (args : List JsVal) : ShipOutput
  | streamWrite (chunk : String) : ShipOutput
  | noOutput : ShipOutput

/-- The console method name chosen for a level by the dispatch switch shared
by both transports (fatal logs through the error method). -/
def methodForLevel : JsLogLevel → String
  | JsLogLevel.debug => "debug"
  | JsLogLevel.error => "error"
  | JsLogLevel.fatal => "error"
  | JsLogLevel.info => "info"
  | JsLogLevel.trace => "trace"
  | JsLogLevel.warn => "warn"

/-- Resolved configuration of the pretty transport: the option fields after
defaults and environment resolution, the width the injected getTerminalWidth
returns, the injected inspect function, and the classified target kind. -/
structure PrettyConfig where
  colorize : Bool
  enabled : Bool
  showLevel : Bool
  showName : Bool
  showTime : Bool
  terminalWidth : Nat
  inspect : JsVal → InspectOptions → String
  targetKind : TargetKind

/-- Name read for the bracketed chain: the destructured context name when it
is a string, undefined otherwise. -/
def asOptName : JsVal → Option String
  | JsVal.str s => some s
  | _ => none

/-- ParentNames read for the bracketed chain: the destructured context chain
when it is an array, undefined otherwise. -/
def asOptChain : JsVal → Option (List JsVal)
  | JsVal.arr xs => some xs
  | _ => none

/-- Embeds PrettyBasicTransport.style: undefined, null, booleans, numbers
and strings render directly (with their colors when colorized), anything
object like goes through the injected inspect with compact true and
unlimited depth. Function values are outside the model. -/
def style (cfg : PrettyConfig) : JsVal → String
  | JsVal.undef => if cfg.colorize then ansiGray "undefined" else "undefined"
  | JsVal.null => if cfg.colorize then ansiGray "null" else "null"
  | JsVal.bool b =>
    let s := if b then "true" else "false"
    if cfg.colorize then ansiCyan s else s
  | JsVal.num n =>
    if cfg.colorize then ansiYellow (toString n) else toString n
  | JsVal.str s => s
  | v =>
    cfg.inspect v
      { colors := some cfg.colorize, compact := some true,
        depth := some JsNumber.infinity }

/-- Embeds PrettyBasicTransport.styleMessages: each message styled, joined
with single spaces. -/
def styleMessages (cfg : PrettyConfig) (messages : List JsVal) : String :=
  String.intercalate " " (messages.map (style cfg))

/-- Embeds PrettyBasicTransport.shipToLogger. A disabled transport returns
the messages untouched. Otherwise the privileged context keys are
destructured, the four optional fragments (time, level label, name chain,
styled messages) are built honoring the show flags, truthy fragments are
joined with spaces and soft wrapped to min(terminalWidth, 120); console like
targets receive the method call for the level with the wrapped line and the
truthy error, metadata and rest of context objects as separate arguments,
stream targets receive one write of the newline terminated block in which
the inspected error, metadata and rest of context follow the prefix line
(the prefix gains a down arrow marker when there is no message text but at
least one trailing block). The call always returns the original messages.
The `resolveDate` argument models the Date construction from the context
timestamp and `nowDate` its fallback to the current time. -/
def prettyShip (cfg : PrettyConfig) (resolveDate : String → JsDate)
    (nowDate : JsDate) (h : Heap) (p : TransportParams) :
    ShipOutput × List JsVal :=
  if cfg.enabled = false then (ShipOutput.noOutput, p.messages) else
  let ctxFields := fieldsOf h (p.context.getD (JsVal.obj []))
  let tsVal := lookupField ctxFields "timestamp"
  let rest := restFields ctxFields
  let dateV :=
    match tsVal with
    | JsVal.str s => resolveDate s
    | _ => nowDate
  let localTimeString :=
    if cfg.showTime then some (formatTime dateV cfg.colorize) else none
  let logLevelString :=
    if cfg.showLevel then some (getLogLevelString p.logLevel cfg.colorize) else none
  let nameChainString :=
    if cfg.showName then
      some (getNameChain (asOptName (lookupField ctxFields "name"))
        (asOptChain (lookupField ctxFields "parentNames")) cfg.colorize)
    else none
  let messagesString :=
    if p.messages.length > 0 then some (styleMessages cfg p.messages) else none
  let maxWidth := min cfg.terminalWidth 120
  let errorObject := extractErrorObject p
  let metadataObject := extractMetadataObject h p
  let restOfContextObject :=
    if rest.length = 0 then JsVal.undef else JsVal.obj rest
  let prefixParts :=
    ([localTimeString, logLevelString, nameChainString,
      messagesString].filterMap id).filter (fun s => !(s == ""))
  let prefixAndMessages :=
    if prefixParts.length > 0 then
      some (wrapAnsiModel (String.intercalate " " prefixParts) maxWidth)
    else none
  match cfg.targetKind with
  | TargetKind.Console | TargetKind.ConsoleLike =>
    let logParts :=
      ([(match prefixAndMessages with
         | some s => JsVal.str s
         | none => JsVal.undef),
        errorObject, metadataObject, restOfContextObject]).filter jsTruthy
    (ShipOutput.consoleCall (methodForLevel p.logLevel) logParts, p.messages)
  | _ =>
    let inspectBlock := fun (v : JsVal) =>
      cfg.inspect v
        { breakLength := some (JsNumber.finite maxWidth),
          colors := some cfg.colorize, depth := some JsNumber.infinity }
    let metadataString :=
      if jsTruthy metadataObject then some (inspectBlock metadataObject) else none
    let restOfContextString :=
      if jsTruthy restOfContextObject then some (inspectBlock restOfContextObject)
      else none
    let errorString :=
      if jsTruthy errorObject then some (inspectBlock errorObject) else none
    let messagesEmpty :=
      match messagesString with
      | none => true
      | some s => s == ""
    let isObjectOnlyWithPrefix :=
      messagesEmpty && !(prefixAndMessages == none) &&
      (!(isUndef errorObject) || !(isUndef metadataObject) ||
       !(isUndef restOfContextObject))
    let firstPart :=
      if isObjectOnlyWithPrefix then prefixAndMessages.map (fun s => s ++ " ↴")
      else prefixAndMessages
    let completeMessage :=
      String.intercalate "\n"
        ((([firstPart, errorString, metadataString,
            restOfContextString]).filterMap id).filter (fun s => !(s == "")))
    (ShipOutput.streamWrite (completeMessage ++ "\n"), p.messages)

/-!
JSON transport, from `src/loglayer/json-basic-transport.ts`.
-/

/-- Resolved configuration of the JSON transport: option fields after
defaults and environment resolution, the width the injected getTerminalWidth
returns, the injected inspect function, a model of the ambient JSON.parse,
and the classified target kind. -/
structure JsonConfig where
  colorize : Bool
  enabled : Bool
  pretty : Bool
  terminalWidth : Nat
  inspect : JsVal → InspectOptions → String
  parseJson : String → JsVal
  targetKind : TargetKind

/-- Embeds JsonBasicTransport.shipToLogger. A disabled transport returns the
messages untouched. Otherwise the record is serialized by paramsToJsonString
(no options are passed); the emitted text is that raw compact JSON string
unless pretty or colorize is requested, in which case the string is parsed
back and re-rendered by the injected inspect with compact the negation of
pretty, colors from colorize, unlimited depth and a break length of
min(terminalWidth, 120) when pretty and MAX_SAFE_INTEGER otherwise. Console
like targets receive the method call for the level with the text as single
argument, stream targets one write of the text plus newline. The call always
returns the original messages. -/
def jsonShip (cfg : JsonConfig) (h : Heap) (p : TransportParams)
    (nowIso : String) : ShipOutput × List JsVal :=
  if cfg.enabled = false then (ShipOutput.noOutput, p.messages) else
  let jsonString := paramsToJsonString h p nowIso []
  let logString :=
    if cfg.pretty || cfg.colorize then
      cfg.inspect (cfg.parseJson jsonString)
        { breakLength :=
            some (JsNumber.finite
              (if cfg.pretty then min cfg.terminalWidth 120 else maxSafeInteger)),
          colors := some cfg.colorize,
          compact := some (!cfg.pretty),
          depth := some JsNumber.infinity }
    else jsonString
  match cfg.targetKind with
  | TargetKind.Console | TargetKind.ConsoleLike =>
    (ShipOutput.consoleCall (methodForLevel p.logLevel) [JsVal.str logString],
     p.messages)
  | _ =>
    (ShipOutput.streamWrite (logString ++ "\n"), p.messages)

/-!
Helper lemmas about field lookup and the object merge.
-/

/-- Lookup steps over a cons cell by comparing the head key. -/
theorem lookupField_cons (kv : String × JsVal) (fs : List (String × JsVal))
    (k : String) :
    lookupField (kv :: fs) k = if kv.1 = k then kv.2 else lookupField fs k := by
  by_cases h : kv.1 = k
  · simp [lookupField, List.find?, h]
  · have hb : (kv.1 == k) = false := by simp [h]
    simp [lookupField, List.find?, h, hb]

/-- Merging a single binding steps through the first object one entry at a
time: a matching head key takes the new value (and the appended part
vanishes), a different head key passes through. -/
theorem mergeObj_cons_single (kv : String × JsVal) (c : LogContext)
    (k : String) (v : JsVal) :
    mergeObj (kv :: c) [(k, v)] =
      if kv.1 = k then (kv.1, v) :: c.map (overrideEntry [(k, v)])
      else kv :: mergeObj c [(k, v)] := by
  by_cases h : kv.1 = k
  · have h1 : (k == kv.1) = true := by simp [h]
    have h2 : (kv.1 == k) = true := by simp [h]
    simp [mergeObj, overrideEntry, hasKey, List.find?, h1, h2, h]
  · have h1 : (k == kv.1) = false := by simp [Ne.symm h]
    have h2 : (kv.1 == k) = false := by simp [h]
    simp [mergeObj, overrideEntry, hasKey, List.find?, List.filter, h1, h2, h]

/-- The override map for a single binding leaves every other key alone. -/
theorem lookupField_map_override_other (c : LogContext) (k k2 : String)
    (v : JsVal) (hne : k2 ≠ k) :
    lookupField (c.map (overrideEntry [(k, v)])) k2 = lookupField c k2 := by
  induction c with
  | nil => rfl
  | cons kv c ih =>
    by_cases heq : kv.1 = k
    · have h1 : (k == kv.1) = true := by simp [heq]
      have h2 : kv.1 ≠ k2 := by rw [heq]; exact Ne.symm hne
      simp only [List.map_cons]
      rw [lookupField_cons, lookupField_cons]
      simp only [overrideEntry, List.find?, h1]
      simp [h2, ih]
    · have h1 : (k == kv.1) = false := by simp [Ne.symm heq]
      simp only [List.map_cons]
      rw [lookupField_cons, lookupField_cons]
      simp only [overrideEntry, List.find?, h1]
      by_cases hk2 : kv.1 = k2 <;> simp [hk2, ih]

/-- After merging a single binding, looking its key up yields its value. -/
theorem lookupField_mergeObj_self (c : LogContext) (k : String) (v : JsVal) :
    lookupField (mergeObj c [(k, v)]) k = v := by
  induction c with
  | nil => simp [mergeObj, hasKey, lookupField]
  | cons kv c ih =>
    rw [mergeObj_cons_single]
    by_cases h : kv.1 = k
    · simp [h, lookupField_cons]
    · simp only [h, if_false]
      rw [lookupField_cons]
      simp [h, ih]

/-- After merging a single binding, every other key reads as before. -/
theorem lookupField_mergeObj_other (c : LogContext) (k k2 : String)
    (v : JsVal) (hne : k2 ≠ k) :
    lookupField (mergeObj c [(k, v)]) k2 = lookupField c k2 := by
  induction c with
  | nil =>
    have h1 : (k == k2) = false := by simp [Ne.symm hne]
    simp [mergeObj, hasKey, lookupField, List.find?, h1]
  | cons kv c ih =>
    rw [mergeObj_cons_single]
    by_cases h : kv.1 = k
    · have h2 : kv.1 ≠ k2 := by rw [h]; exact Ne.symm hne
      rw [if_pos h, lookupField_cons, lookupField_cons]
      simp [h2, lookupField_map_override_other c k k2 v hne]
    · simp only [h, if_false]
      rw [lookupField_cons, lookupField_cons]
      by_cases hk2 : kv.1 = k2 <;> simp [hk2, ih]

/-- The context manager hook appends exactly one entry to the parentNames
chain: the parent name, or null when the parent context has none. -/
theorem parentNamesList_onChild (pctx : LogContext) :
    parentNamesList (onChildLoggerCreated pctx) =
      parentNamesList pctx ++
        [match lookupField pctx "name" with
         | JsVal.undef => JsVal.null
         | JsVal.null => JsVal.null
         | v => v] := by
  unfold onChildLoggerCreated
  unfold parentNamesList
  rw [lookupField_mergeObj_self]

/-- Each child logger creation grows the parentNames chain by one, whether
or not the child receives a name. -/
theorem parentNamesList_getChild_length (c : LogContext) (nm : Option String) :
    (parentNamesList (getChildLogger c nm)).length =
      (parentNamesList c).length + 1 := by
  cases nm with
  | none =>
    simp only [getChildLogger]
    rw [parentNamesList_onChild]; simp
  | some n =>
    by_cases h : n = ""
    · simp only [getChildLogger, if_pos h]
      rw [parentNamesList_onChild]; simp
    · simp only [getChildLogger, if_neg h]
      unfold parentNamesList
      rw [lookupField_mergeObj_other _ _ _ _ (by decide)]
      have h2 := parentNamesList_onChild c
      unfold parentNamesList at h2
      rw [h2]
      simp

/-- Along any chain of child creations the parentNames chain grows by the
chain length. -/
theorem parentNamesList_chain_length (specs : List (Option String)) :
    ∀ root : LogContext,
      (parentNamesList (chainContext root specs)).length =
        (parentNamesList root).length + specs.length := by
  induction specs with
  | nil => intro root; simp [chainContext]
  | cons s specs ih =>
    intro root
    simp only [chainContext]
    rw [ih, parentNamesList_getChild_length]
    simp only [List.length_cons]
    omega

/-!
Claim theorems.
-/

/-- Empty heap for the C1 record family (all values are inline). -/
def c1Heap : Heap := []

/-- Context of the C1 record family, each optional piece switchable. -/
def c1SampleContext (hasName hasParentNames hasCtx : Bool) : JsVal :=
  JsVal.obj
    ((if hasName then [("name", JsVal.str "n")] else []) ++
     (if hasParentNames then [("parentNames", JsVal.arr [JsVal.str "p"])] else []) ++
     (if hasCtx then [("z", JsVal.num 1)] else []))

/-- Record family for C1: every combination of present and absent name,
parentNames, metadata, error and extra context. -/
def c1SampleParams (hasName hasParentNames hasMetadata hasErr hasCtx : Bool) :
    TransportParams :=
  { logLevel := JsLogLevel.info,
    messages := [JsVal.str "x"],
    context := some (c1SampleContext hasName hasParentNames hasCtx),
    metadata := if hasMetadata then some (JsVal.obj [("m", JsVal.num 2)]) else none,
    error := if hasErr then some (JsVal.obj [("message", JsVal.str "boom")]) else none }

/-- The amended output shape for C1, spelled out independently of the
serializer: the present keys in sorted (alphabetical) order context, error,
level, messages, metadata, name, parentNames, timestamp, with every key
whose value is undefined omitted entirely. -/
def c1SortedRendering (hasName hasParentNames hasMetadata hasErr hasCtx : Bool) :
    String :=
  "\x7b" ++ String.intercalate ","
    (List.filterMap id
      [if hasCtx then some "\"context\":\x7b\"z\":1\x7d" else none,
       if hasErr then some "\"error\":\x7b\"message\":\"boom\"\x7d" else none,
       some "\"level\":\"info\"",
       some "\"messages\":[\"x\"]",
       if hasMetadata then some "\"metadata\":\x7b\"m\":2\x7d" else none,
       if hasName then some "\"name\":\"n\"" else none,
       if hasParentNames then some "\"parentNames\":[\"p\"]" else none,
       some "\"timestamp\":\"2024-01-01T00:00:00.000Z\""]) ++ "\x7d"

/-- C1 (amended): across every combination of present and absent optional
record pieces, paramsToJsonString emits the keys in the sorted order
context, error, level, messages, metadata, name, parentNames, timestamp of
the safe-stable-stringify dependency, never in the documented order of the
spec, and every key whose value is undefined is omitted entirely rather
than emitted as null. -/
theorem jsonRecord_key_order_sorted :
    ∀ hasName hasParentNames hasMetadata hasErr hasCtx : Bool,
      paramsToJsonString c1Heap
          (c1SampleParams hasName hasParentNames hasMetadata hasErr hasCtx)
          "2024-01-01T00:00:00.000Z" [] =
        c1SortedRendering hasName hasParentNames hasMetadata hasErr hasCtx := by
  decide

/-- Concrete record refuting the documented key order of C1: a record whose
context has a name and one extra key. -/
def c1CexParams : TransportParams :=
  { logLevel := JsLogLevel.info,
    messages := [JsVal.str "x"],
    context := some (JsVal.obj [("name", JsVal.str "n"), ("z", JsVal.num 1)]),
    metadata := none,
    error := none }

/-- C1 (counterexample): on a concrete record the serializer emits the top
level keys in the order context, level, messages, name, timestamp, which is
not the documented order name, timestamp, level, messages, context that the
claim asserts for the present keys; the full output string is shown. -/
theorem jsonRecord_documented_key_order_cex :
    topLevelKeysOf (paramsToJsonString [] c1CexParams "T" []) =
      ["context", "level", "messages", "name", "timestamp"]
    ∧ topLevelKeysOf (paramsToJsonString [] c1CexParams "T" []) ≠
      ["name", "timestamp", "level", "messages", "context"]
    ∧ paramsToJsonString [] c1CexParams "T" [] =
      "\x7b\"context\":\x7b\"z\":1\x7d,\"level\":\"info\",\"messages\":[\"x\"],\"name\":\"n\",\"timestamp\":\"T\"\x7d" :=
  ⟨rfl, by decide, rfl⟩

/-- Deepest context of the C2 chain: root named app, then children named
module, service and handler created with getChildLogger. -/
def c2DeepestContext : LogContext :=
  getChildLogger
    (getChildLogger (getChildLogger (rootContext (some "app")) (some "module"))
      (some "service"))
    (some "handler")

/-- C2: for the logger chain root, A, B, C named app, module, service and
handler created via getChildLogger, the context of the deepest child has
parentNames equal to exactly the ordered sequence app, module, service of
length three. -/
theorem ancestry_chain_deepest :
    lookupField c2DeepestContext "parentNames" =
      JsVal.arr [JsVal.str "app", JsVal.str "module", JsVal.str "service"]
    ∧ (parentNamesList c2DeepestContext).length = 3 :=
  ⟨rfl, rfl⟩

/-- Heap with a self referencing context object for C3. -/
def circHeap : Heap := [JsVal.obj [("name", JsVal.str "n"), ("self", JsVal.ref 0)]]

/-- Record for C3 whose context transitively contains itself. -/
def circParams : TransportParams :=
  { logLevel := JsLogLevel.info,
    messages := [JsVal.str "hi"],
    context := some (JsVal.ref 0),
    metadata := none,
    error := none }

/-- Default style JSON transport aimed at a stream, for C3. -/
def circJsonCfg : JsonConfig :=
  { colorize := false, enabled := true, pretty := false, terminalWidth := 80,
    inspect := fun _ _ => "", parseJson := fun _ => JsVal.null,
    targetKind := TargetKind.StreamLike }

/-- Uncolored pretty transport aimed at a stream, for C3. -/
def circPrettyCfg : PrettyConfig :=
  { colorize := false, enabled := true, showLevel := true, showName := true,
    showTime := true, terminalWidth := 80,
    inspect := fun _ _ => "(inspected)", targetKind := TargetKind.StreamLike }

/-- A fixed clock instant for C3. -/
def circDate : JsDate :=
  { hours := 12, minutes := 34, seconds := 56, milliseconds := 789 }

/-- C3: a record whose context contains a circular reference serializes to a
JSON string in which the circular edge renders as the stable placeholder
value Circular instead of crashing, and shipToLogger on both the JSON and
the pretty transport completes on that record, producing its stream write
and returning the original messages. -/
theorem circular_reference_tolerated :
    paramsToJsonString circHeap circParams "T" [] =
      "\x7b\"context\":\x7b\"self\":\x7b\"name\":\"n\",\"self\":\"[Circular]\"\x7d\x7d,\"level\":\"info\",\"messages\":[\"hi\"],\"name\":\"n\",\"timestamp\":\"T\"\x7d"
    ∧ jsonShip circJsonCfg circHeap circParams "T" =
      (ShipOutput.streamWrite
        "\x7b\"context\":\x7b\"self\":\x7b\"name\":\"n\",\"self\":\"[Circular]\"\x7d\x7d,\"level\":\"info\",\"messages\":[\"hi\"],\"name\":\"n\",\"timestamp\":\"T\"\x7d\n",
       [JsVal.str "hi"])
    ∧ prettyShip circPrettyCfg (fun _ => circDate) circDate circHeap circParams =
      (ShipOutput.streamWrite "12:34:56.789 INFO  [n] hi\n(inspected)\n",
       [JsVal.str "hi"]) :=
  ⟨rfl, rfl, rfl⟩

/-- C4: target classification is total over the supported shapes: the
standard output and standard error streams classify as StreamStdout and
StreamStderr even though they are structurally stream like, because the
identity checks run first; the ambient console classifies as Console; an
object with all five callable console methods classifies as ConsoleLike; an
object with only a callable write classifies as StreamLike; and an input
matching none of the shapes is a thrown classification error. -/
theorem target_classification_total (t : TargetShape) :
    (t.isProcessStdout = true → t.hasWrite = true →
      createLogBasicTypedTarget t = Except.ok TargetKind.StreamStdout)
    ∧ (t.isProcessStdout = false → t.isProcessStderr = true → t.hasWrite = true →
      createLogBasicTypedTarget t = Except.ok TargetKind.StreamStderr)
    ∧ (t.isProcessStdout = false → t.isProcessStderr = false →
       t.isGlobalConsole = true →
      createLogBasicTypedTarget t = Except.ok TargetKind.Console)
    ∧ (t.isProcessStdout = false → t.isProcessStderr = false →
       t.isGlobalConsole = false → t.hasConsoleCtorName = false →
       t.hasDebug = true → t.hasError = true → t.hasInfo = true →
       t.hasTrace = true → t.hasWarn = true →
      createLogBasicTypedTarget t = Except.ok TargetKind.ConsoleLike)
    ∧ (t.isProcessStdout = false → t.isProcessStderr = false →
       t.isGlobalConsole = false → t.hasConsoleCtorName = false →
       t.hasDebug = false → t.hasError = false → t.hasInfo = false →
       t.hasTrace = false → t.hasWarn = false → t.hasWrite = true →
      createLogBasicTypedTarget t = Except.ok TargetKind.StreamLike)
    ∧ (isStreamStdout t = false → isStreamStderr t = false →
       isConsole t = false → isConsoleLike t = false → isStreamLike t = false →
      createLogBasicTypedTarget t =
        Except.error "Unable to identify ILogBasic type") := by
  refine ⟨?_, ?_, ?_, ?_, ?_, ?_⟩
  · intro h1 _
    unfold createLogBasicTypedTarget
    rw [if_pos (by simp [isStreamStdout, h1])]
  · intro h1 h2 _
    unfold createLogBasicTypedTarget
    rw [if_neg (by simp [isStreamStdout, h1]), if_pos (by simp [isStreamStderr, h2])]
  · intro h1 h2 h3
    unfold createLogBasicTypedTarget
    rw [if_neg (by simp [isStreamStdout, h1]), if_neg (by simp [isStreamStderr, h2]),
      if_pos (by simp [isConsole, h3])]
  · intro h1 h2 h3 h4 h5 h6 h7 h8 h9
    unfold createLogBasicTypedTarget
    rw [if_neg (by simp [isStreamStdout, h1]), if_neg (by simp [isStreamStderr, h2]),
      if_neg (by simp [isConsole, h3, h4]),
      if_pos (by simp [isConsoleLike, h5, h6, h7, h8, h9])]
  · intro h1 h2 h3 h4 h5 h6 h7 h8 h9 h10
    unfold createLogBasicTypedTarget
    rw [if_neg (by simp [isStreamStdout, h1]), if_neg (by simp [isStreamStderr, h2]),
      if_neg (by simp [isConsole, h3, h4]),
      if_neg (by simp [isConsoleLike, h5]),
      if_pos (by simp [isStreamLike, h10])]
  · intro h1 h2 h3 h4 h5
    unfold createLogBasicTypedTarget
    rw [if_neg (by simp [h1]), if_neg (by simp [h2]), if_neg (by simp [h3]),
      if_neg (by simp [h4]), if_neg (by simp [h5])]

/-- The standard output stream shape: identity match plus a write member. -/
def stdoutShape : TargetShape :=
  { isProcessStdout := true, isProcessStderr := false, isGlobalConsole := false,
    hasConsoleCtorName := false, hasDebug := false, hasError := false,
    hasInfo := false, hasTrace := false, hasWarn := false, hasWrite := true }

/-- The standard error stream shape: identity match plus a write member. -/
def stderrShape : TargetShape :=
  { isProcessStdout := false, isProcessStderr := true, isGlobalConsole := false,
    hasConsoleCtorName := false, hasDebug := false, hasError := false,
    hasInfo := false, hasTrace := false, hasWarn := false, hasWrite := true }

/-- The ambient console shape. -/
def consoleShape : TargetShape :=
  { isProcessStdout := false, isProcessStderr := false, isGlobalConsole := true,
    hasConsoleCtorName := true, hasDebug := true, hasError := true,
    hasInfo := true, hasTrace := true, hasWarn := true, hasWrite := false }

/-- A console like object that is not the ambient console. -/
def consoleLikeShape : TargetShape :=
  { isProcessStdout := false, isProcessStderr := false, isGlobalConsole := false,
    hasConsoleCtorName := false, hasDebug := true, hasError := true,
    hasInfo := true, hasTrace := true, hasWarn := true, hasWrite := false }

/-- An object with only a callable write member. -/
def streamLikeShape : TargetShape :=
  { isProcessStdout := false, isProcessStderr := false, isGlobalConsole := false,
    hasConsoleCtorName := false, hasDebug := false, hasError := false,
    hasInfo := false, hasTrace := false, hasWarn := false, hasWrite := true }

/-- An object matching no supported target shape. -/
def unknownShape : TargetShape :=
  { isProcessStdout := false, isProcessStderr := false, isGlobalConsole := false,
    hasConsoleCtorName := false, hasDebug := false, hasError := false,
    hasInfo := false, hasTrace := false, hasWarn := false, hasWrite := false }

/-- C4 (witness): the classification theorem applied to one concrete shape
per kind and to an unclassifiable shape. -/
theorem target_classification_total_witness :
    createLogBasicTypedTarget stdoutShape = Except.ok TargetKind.StreamStdout
    ∧ createLogBasicTypedTarget stderrShape = Except.ok TargetKind.StreamStderr
    ∧ createLogBasicTypedTarget consoleShape = Except.ok TargetKind.Console
    ∧ createLogBasicTypedTarget consoleLikeShape =
        Except.ok TargetKind.ConsoleLike
    ∧ createLogBasicTypedTarget streamLikeShape = Except.ok TargetKind.StreamLike
    ∧ createLogBasicTypedTarget unknownShape =
        Except.error "Unable to identify ILogBasic type" :=
  ⟨(target_classification_total stdoutShape).1 rfl rfl,
   (target_classification_total stderrShape).2.1 rfl rfl rfl,
   (target_classification_total consoleShape).2.2.1 rfl rfl rfl,
   (target_classification_total consoleLikeShape).2.2.2.1 rfl rfl rfl rfl rfl rfl
     rfl rfl rfl,
   (target_classification_total streamLikeShape).2.2.2.2.1 rfl rfl rfl rfl rfl
     rfl rfl rfl rfl rfl,
   (target_classification_total unknownShape).2.2.2.2.2 rfl rfl rfl rfl rfl⟩

/-- Pretty transport configuration of the C5 scenario: colorize off, all
show flags on, default terminal width, stream target. -/
def c5Config : PrettyConfig :=
  { colorize := false, enabled := true, showLevel := true, showName := true,
    showTime := true, terminalWidth := maxSafeInteger,
    inspect := fun _ _ => "", targetKind := TargetKind.StreamLike }

/-- Record of the C5 scenario: three string messages at level info with
context name lognow. -/
def c5Params : TransportParams :=
  { logLevel := JsLogLevel.info,
    messages := [JsVal.str "first", JsVal.str "second", JsVal.str "third"],
    context := some (JsVal.obj [("name", JsVal.str "lognow")]),
    metadata := none,
    error := none }

/-- A fixed clock instant for C5. -/
def c5Date : JsDate :=
  { hours := 12, minutes := 34, seconds := 56, milliseconds := 789 }

/-- C5: the record with messages first, second, third at level info,
rendered uncolored with name lognow to a stream sink, writes exactly the
time fragment followed by one space and the text INFO, two spaces (the five
character level padding), the bracketed name and the space joined messages;
stripping the leading HH:MM:SS.mmm fragment and its trailing space leaves
exactly the text INFO followed by two spaces, the bracketed name and first
second third. -/
theorem pretty_line_literal_scenario :
    prettyShip c5Config (fun _ => c5Date) c5Date [] c5Params =
      (ShipOutput.streamWrite
        ("12:34:56.789" ++ " " ++ "INFO  [lognow] first second third" ++ "\n"),
       [JsVal.str "first", JsVal.str "second", JsVal.str "third"]) :=
  rfl

/-- C6: for both console transport constructors, the no color and force
color signals are true exactly when the corresponding variable is present
in the environment regardless of its value; a present NO_COLOR alone forces
the resolved colorize to false, a present FORCE_COLOR forces it to true,
with both present force color wins so colorize resolves to true, and with
neither present the configured value passes through. -/
theorem colorize_env_signals (env : EnvMap) (cfg : Bool) :
    (isNoColorSet env = (env "NO_COLOR").isSome
      ∧ isForceColorSet env = (env "FORCE_COLOR").isSome)
    ∧ ((env "NO_COLOR").isSome = true → (env "FORCE_COLOR").isSome = false →
        prettyResolveColorize env cfg = false ∧ jsonResolveColorize env cfg = false)
    ∧ ((env "FORCE_COLOR").isSome = true →
        prettyResolveColorize env cfg = true ∧ jsonResolveColorize env cfg = true)
    ∧ ((env "NO_COLOR").isSome = true → (env "FORCE_COLOR").isSome = true →
        prettyResolveColorize env cfg = true ∧ jsonResolveColorize env cfg = true)
    ∧ ((env "NO_COLOR").isSome = false → (env "FORCE_COLOR").isSome = false →
        prettyResolveColorize env cfg = cfg ∧ jsonResolveColorize env cfg = cfg) := by
  refine ⟨⟨rfl, rfl⟩, ?_, ?_, ?_, ?_⟩
  · intro h1 h2
    constructor <;>
      simp [prettyResolveColorize, jsonResolveColorize, isNoColorSet,
        isForceColorSet, isEnvDefined, h1, h2]
  · intro h1
    constructor <;>
      simp [prettyResolveColorize, jsonResolveColorize, isNoColorSet,
        isForceColorSet, isEnvDefined, h1]
  · intro h1 h2
    constructor <;>
      simp [prettyResolveColorize, jsonResolveColorize, isNoColorSet,
        isForceColorSet, isEnvDefined, h1, h2]
  · intro h1 h2
    constructor <;>
      simp [prettyResolveColorize, jsonResolveColorize, isNoColorSet,
        isForceColorSet, isEnvDefined, h1, h2]

/-- An environment in which both color variables are present with empty
string values. -/
def envBothEmpty : EnvMap :=
  fun v => if v = "NO_COLOR" ∨ v = "FORCE_COLOR" then some "" else none

/-- C6 (witness): with NO_COLOR and FORCE_COLOR both present as empty
strings, both constructors resolve colorize to true. -/
theorem colorize_env_signals_witness :
    prettyResolveColorize envBothEmpty false = true
    ∧ jsonResolveColorize envBothEmpty false = true :=
  (colorize_env_signals envBothEmpty false).2.2.2.1 (by decide) (by decide)

/-- C7: on an enabled JSON transport writing to a stream, the emitted text
is the raw compact JSON string of the record exactly when neither pretty
nor colorize is requested; whenever pretty or colorize is requested the
transport instead parses that JSON string back and re-renders it through
the injected inspect with compact the negation of pretty, colors from
colorize, unlimited depth, and a break length of min(terminalWidth, 120)
when pretty and MAX_SAFE_INTEGER otherwise. -/
theorem json_inspect_routing (cfg : JsonConfig) (h : Heap) (p : TransportParams)
    (nowIso : String) (hen : cfg.enabled = true)
    (htk : cfg.targetKind = TargetKind.StreamLike) :
    (cfg.pretty = false → cfg.colorize = false →
      jsonShip cfg h p nowIso =
        (ShipOutput.streamWrite (paramsToJsonString h p nowIso [] ++ "\n"),
         p.messages))
    ∧ ((cfg.pretty || cfg.colorize) = true →
      jsonShip cfg h p nowIso =
        (ShipOutput.streamWrite
          (cfg.inspect (cfg.parseJson (paramsToJsonString h p nowIso []))
            { breakLength :=
                some (JsNumber.finite
                  (if cfg.pretty then min cfg.terminalWidth 120
                   else maxSafeInteger)),
              colors := some cfg.colorize,
              compact := some (!cfg.pretty),
              depth := some JsNumber.infinity } ++ "\n"),
         p.messages)) := by
  constructor
  · intro hp hc
    simp [jsonShip, hen, htk, hp, hc]
  · intro hor
    simp [jsonShip, hen, htk, hor]

/-- A pretty JSON transport with concrete injected functions, for the C7
witness. -/
def c7WitnessCfg : JsonConfig :=
  { colorize := false, enabled := true, pretty := true, terminalWidth := 80,
    inspect := fun _ _ => "X", parseJson := fun _ => JsVal.null,
    targetKind := TargetKind.StreamLike }

/-- A minimal record for the C7 witness. -/
def c7WitnessParams : TransportParams :=
  { logLevel := JsLogLevel.info, messages := [JsVal.str "m"],
    context := none, metadata := none, error := none }

/-- C7 (witness): with pretty requested, the transport writes the output of
the injected inspect instead of the raw JSON string. -/
theorem json_inspect_routing_witness :
    jsonShip c7WitnessCfg [] c7WitnessParams "t" =
      (ShipOutput.streamWrite "X\n", [JsVal.str "m"]) :=
  (json_inspect_routing c7WitnessCfg [] c7WitnessParams "t" rfl rfl).2 rfl

/-- C8: for every configuration, record and target kind, and whether the
transport is enabled or disabled, shipToLogger on both the pretty and the
JSON transport returns the original messages of the record unchanged. -/
theorem shipToLogger_returns_messages (pcfg : PrettyConfig) (jcfg : JsonConfig)
    (resolveDate : String → JsDate) (nowDate : JsDate) (h : Heap)
    (p : TransportParams) (nowIso : String) :
    (prettyShip pcfg resolveDate nowDate h p).2 = p.messages
    ∧ (jsonShip jcfg h p nowIso).2 = p.messages := by
  constructor
  · obtain ⟨col, en, sl, sn, st, tw, ins, tk⟩ := pcfg
    cases en <;> cases tk <;> rfl
  · obtain ⟨col, en, pr, tw, ins, pj, tk⟩ := jcfg
    cases en <;> cases tk <;> rfl

/-- C9: when a child logger is created from a parent whose context has no
name key, the entry appended to the parentNames chain for that parent is
exactly the null placeholder, never omitted; and along any chain of child
creations below a root without a parentNames chain, the length of the
parentNames chain of the deepest logger equals the number of creations,
however many ancestors are unnamed. -/
theorem unnamed_parent_null_entry (pctx root : LogContext)
    (specs : List (Option String))
    (hname : lookupField pctx "name" = JsVal.undef)
    (hroot : lookupField root "parentNames" = JsVal.undef) :
    parentNamesList (onChildLoggerCreated pctx) =
      parentNamesList pctx ++ [JsVal.null]
    ∧ (parentNamesList (chainContext root specs)).length = specs.length := by
  constructor
  · rw [parentNamesList_onChild, hname]
  · rw [parentNamesList_chain_length]
    unfold parentNamesList
    rw [hroot]
    simp

/-- C9 (witness): an empty parent context receives a null entry, and a
three step chain with two unnamed children has a chain of length three. -/
theorem unnamed_parent_null_entry_witness :
    parentNamesList (onChildLoggerCreated []) = [JsVal.null]
    ∧ (parentNamesList (chainContext [] [none, some "svc", none])).length = 3 :=
  unnamed_parent_null_entry [] [] [none, some "svc", none] rfl rfl

/-- C10: an object that is not the ambient console or a standard stream but
satisfies both the console like shape and the stream like shape classifies
as ConsoleLike, never StreamLike, because the console like structural check
precedes the stream like one. -/
theorem consoleLike_precedes_streamLike (t : TargetShape)
    (h1 : t.isProcessStdout = false) (h2 : t.isProcessStderr = false)
    (h3 : isConsole t = false) (h4 : isConsoleLike t = true)
    (h5 : isStreamLike t = true) :
    createLogBasicTypedTarget t = Except.ok TargetKind.ConsoleLike := by
  unfold createLogBasicTypedTarget
  rw [if_neg (by simp [isStreamStdout, h1]), if_neg (by simp [isStreamStderr, h2]),
    if_neg (by simp [h3]), if_pos (by simp [h4])]

/-- A shape with all five console methods and a write member, identities
excluded. -/
def dualShape : TargetShape :=
  { isProcessStdout := false, isProcessStderr := false, isGlobalConsole := false,
    hasConsoleCtorName := false, hasDebug := true, hasError := true,
    hasInfo := true, hasTrace := true, hasWarn := true, hasWrite := true }

/-- C10 (witness): the dual shape classifies as ConsoleLike. -/
theorem consoleLike_precedes_streamLike_witness :
    createLogBasicTypedTarget dualShape = Except.ok TargetKind.ConsoleLike :=
  consoleLike_precedes_streamLike dualShape rfl rfl rfl rfl rfl

end Lognow
